import Mathlib

/-!
Verification of `generate_feed.py` (westminster-podcast): a one-shot scraper
that reads a messages listing page, extracts per-message details (title,
audio URL, date, speaker) from each message page, and writes a podcast RSS
file.  The Python functions are shallowly embedded below; network fetches
are modelled by an environment `env : String → Option Doc` (the result of
`get_soup`, `none` on a request error), the current time by an explicit
`now` parameter, and Python exceptions by `Except PyError`.
-/

/-! ## Python string primitives (embedded from CPython semantics) -/

/-- `startsWithL pat l`: does list `l` start with `pat`?  (Python `str.startswith`,
at the character-list level.) -/
def startsWithL : List Char → List Char → Bool
  | [], _ => true
  | _ :: _, [] => false
  | p :: ps, c :: cs => p == c && startsWithL ps cs

/-- Does `pat` occur as a contiguous run inside `l`?  (Python `pat in s`.) -/
def occursIn (pat : List Char) : List Char → Bool
  | [] => startsWithL pat []
  | c :: cs => startsWithL pat (c :: cs) || occursIn pat cs

/-- Python `pat in s` on strings. -/
def strIn (pat s : String) : Bool := occursIn pat.data s.data

/-- Python `s.startswith(p)` on strings. -/
def pyStartsWith (s p : String) : Bool := startsWithL p.data s.data

/-- Auxiliary for `pySplit`: split on the non-empty separator
`sep0 :: sepRest`, scanning left to right, non-overlapping (Python
`str.split(sep)`).  `cur` is the current piece, reversed; a positive `skip`
means we are still inside an already-matched separator and must consume
that many characters before scanning again. -/
def splitGo (sep0 : Char) (sepRest : List Char) :
    List Char → List Char → Nat → List (List Char)
  | [], cur, _ => [cur.reverse]
  | _ :: rest, cur, skip + 1 => splitGo sep0 sepRest rest cur skip
  | c :: rest, cur, 0 =>
    if startsWithL (sep0 :: sepRest) (c :: rest) then
      cur.reverse :: splitGo sep0 sepRest rest [] sepRest.length
    else
      splitGo sep0 sepRest rest (c :: cur) 0

/-- Python `s.split(sep)` for a non-empty separator (the only uses in the
source are `'/'`, `' - '` and `'?'`).  For an empty separator Python raises;
that case is unreachable here and mapped to `[s]`. -/
def pySplit (s sep : String) : List String :=
  match sep.data with
  | [] => [s]
  | c :: cs => (splitGo c cs s.data [] 0).map (fun l => ⟨l⟩)

/-- Auxiliary for `pyReplace`: replace every non-overlapping,
leftmost-first occurrence of `pat0 :: patRest` by `repl`; a positive `skip`
means we are still consuming an already-matched pattern. -/
def replaceGo (pat0 : Char) (patRest : List Char) (repl : List Char) :
    List Char → Nat → List Char
  | [], _ => []
  | _ :: rest, skip + 1 => replaceGo pat0 patRest repl rest skip
  | c :: rest, 0 =>
    if startsWithL (pat0 :: patRest) (c :: rest) then
      repl ++ replaceGo pat0 patRest repl rest patRest.length
    else
      c :: replaceGo pat0 patRest repl rest 0

/-- Python `s.replace(pat, repl)` (replaces every occurrence) for non-empty
`pat`; the only use in the source is `.replace(".mp3", "")`. -/
def pyReplace (s pat repl : String) : String :=
  match pat.data with
  | [] => s
  | c :: cs => ⟨replaceGo c cs repl.data s.data 0⟩

/-- Python `s.strip()` restricted to ASCII whitespace (all inputs here are
ASCII). -/
def pyStrip (s : String) : String :=
  ⟨((s.data.dropWhile Char.isWhitespace).reverse.dropWhile Char.isWhitespace).reverse⟩

/-- Hex digit value (both cases), for percent-decoding. -/
def hexVal : Char → Option Nat
  | c =>
    if c.isDigit then some (c.toNat - 48)
    else if 'a' ≤ c && c ≤ 'f' then some (c.toNat - 87)
    else if 'A' ≤ c && c ≤ 'F' then some (c.toNat - 55)
    else none

/-- Auxiliary for `unquote`: decode `%XX` escapes; malformed escapes are left
verbatim.  Note `'+'` is NOT decoded (that is `unquote_plus`, which the
source does not use). -/
def unquoteAux : List Char → List Char
  | [] => []
  | '%' :: a :: b :: rest =>
    match hexVal a, hexVal b with
    | some hi, some lo => Char.ofNat (16 * hi + lo) :: unquoteAux rest
    | _, _ => '%' :: unquoteAux (a :: b :: rest)
  | c :: rest => c :: unquoteAux rest

/-- Python `urllib.parse.unquote` (percent-decoding, ASCII range). -/
def pyUnquote (s : String) : String := ⟨unquoteAux s.data⟩

/-! ## HTML documents (the BeautifulSoup view used by the source) -/

mutual
/-- A parsed HTML node: an element with a tag name, attributes and children,
or a text node.  `bs4.Tag` objects are always truthy, so Python `if tag:`
on a find result is `Option.isSome` here. -/
inductive Node where
  | elem (name : String) (attrs : List (String × String)) (children : NodeList)
  | text (s : String)
  deriving DecidableEq

/-- A sequence of sibling nodes. -/
inductive NodeList where
  | nil
  | cons (n : Node) (ns : NodeList)
  deriving DecidableEq
end

/-- Build a `NodeList` from a list literal. -/
def NodeList.ofList : List Node → NodeList
  | [] => .nil
  | n :: ns => .cons n (NodeList.ofList ns)

/-- Element constructor taking its children as a list literal. -/
def el (name : String) (attrs : List (String × String)) (children : List Node) : Node :=
  .elem name attrs (.ofList children)

/-- A parsed document (`BeautifulSoup` object): the top-level forest. -/
abbrev Doc := NodeList

mutual
/-- All nodes of the subtree rooted at `n`, in document (pre-)order,
including `n` itself. -/
def preorderN : Node → List Node
  | .elem nm a cs => .elem nm a cs :: preorderL cs
  | .text s => [.text s]

/-- Document-order listing of a forest. -/
def preorderL : NodeList → List Node
  | .nil => []
  | .cons n ns => preorderN n ++ preorderL ns
end

/-- All nodes of a document in document order (what `soup.find` /
`soup.find_all` iterate over). -/
def docNodes (d : Doc) : List Node := preorderL d

/-- Strict descendants of a node in document order (what `tag.find`
iterates over). -/
def Node.descendants : Node → List Node
  | .elem _ _ cs => preorderL cs
  | .text _ => []

/-- First value of attribute `k` (bs4 `tag.get(k)` / `tag[k]` lookup). -/
def attrGet (attrs : List (String × String)) (k : String) : Option String :=
  (attrs.find? (fun p => p.1 == k)).map (fun p => p.2)

/-- Is this node an element with the given tag name? -/
def isElemNamed (nm : String) : Node → Bool
  | .elem n _ _ => n == nm
  | .text _ => false

/-- bs4 `tag.find(nm)`: first strict descendant element named `nm`. -/
def Node.findDesc (t : Node) (nm : String) : Option Node :=
  t.descendants.find? (isElemNamed nm)

/-- Attribute lookup directly on a node (`none` for text nodes). -/
def nodeAttr (n : Node) (k : String) : Option String :=
  match n with
  | .elem _ a _ => attrGet a k
  | .text _ => none

/-- Python truthiness of `tag.get(k)`: attribute present and non-empty. -/
def truthyAttr (n : Node) (k : String) : Bool :=
  match nodeAttr n k with
  | some v => v != ""
  | none => false

/-- bs4 `find('audio', class_='wp-audio-shortcode')` matcher: an `audio`
element whose whitespace-separated `class` attribute contains the token. -/
def isWpAudio (n : Node) : Bool :=
  isElemNamed "audio" n &&
    (match nodeAttr n "class" with
     | some c => (pySplit c " ").contains "wp-audio-shortcode"
     | none => false)

mutual
/-- Concatenated text of a node, each string stripped
(bs4 `get_text(strip=True)`). -/
def textOfN : Node → String
  | .elem _ _ cs => textOfL cs
  | .text s => pyStrip s

/-- Concatenated stripped text of a forest. -/
def textOfL : NodeList → String
  | .nil => ""
  | .cons n ns => textOfN n ++ textOfL ns
end

/-- bs4 `tag.get_text(strip=True)`. -/
def Node.getTextStrip (n : Node) : String := textOfN n

/-! ## Dates and Python exceptions -/

/-- The calendar part of a Python `datetime` (its time-of-day fields never
influence any behaviour claimed about this program, so they are omitted;
`datetime.now()` is passed in as an explicit `now` value). -/
structure PyDateTime where
  year : Nat
  month : Nat
  day : Nat
  deriving Repr, DecidableEq

/-- The Python exceptions that can escape `get_message_details`:
`KeyError` from bs4 attribute subscripting, `ValueError` from
`datetime.strptime`. -/
inductive PyError where
  | keyError (key : String)
  | valueError (msg : String)
  deriving Repr, DecidableEq

/-- Gregorian leap year (CPython `calendar` rule). -/
def isLeap (y : Nat) : Bool :=
  (y % 4 == 0 && y % 100 != 0) || y % 400 == 0

/-- Days in a month, as validated by `datetime`. -/
def daysInMonth (y m : Nat) : Nat :=
  if m == 2 then (if isLeap y then 29 else 28)
  else if m == 4 || m == 6 || m == 9 || m == 11 then 30
  else 31

/-- Does the character list start with the regex pattern
`\d{4}-\d{2}-\d{2}` (four digits, dash, two digits, dash, two digits)? -/
def dateShapeAt : List Char → Bool
  | a :: b :: c :: d :: s1 :: e :: f :: s2 :: g :: h :: _ =>
    a.isDigit && b.isDigit && c.isDigit && d.isDigit && s1 == '-' &&
      e.isDigit && f.isDigit && s2 == '-' && g.isDigit && h.isDigit
  | _ => false

/-- `re.search(r'(\d{4}-\d{2}-\d{2})', ·)` scan: try each position left to
right, return the first (leftmost) match. -/
def dateSearchAux : List Char → Option (List Char)
  | [] => none
  | c :: rest =>
    if dateShapeAt (c :: rest) then some ((c :: rest).take 10)
    else dateSearchAux rest

/-- `re.search(r'(\d{4}-\d{2}-\d{2})', s)`, returning the matched group. -/
def dateSearch (s : String) : Option String :=
  (dateSearchAux s.data).map (fun l => ⟨l⟩)

/-- Numeric value of a decimal digit character. -/
def digitVal (c : Char) : Nat := c.toNat - 48

/-- `datetime.strptime(s, "%Y-%m-%d")` on the exact ten-character shape the
regex can produce: `some` of the calendar date when valid, `none` when
CPython would raise `ValueError` (month outside 1..12, day outside the
month, year 0).  Inputs of any other shape (unreachable: the argument is
always a regex match) also give `none`. -/
def strptimeYMD (s : String) : Option PyDateTime :=
  match s.data with
  | [a, b, c, d, s1, e, f, s2, g, h] =>
    if a.isDigit && b.isDigit && c.isDigit && d.isDigit && s1 == '-' &&
        e.isDigit && f.isDigit && s2 == '-' && g.isDigit && h.isDigit then
      let y := ((digitVal a * 10 + digitVal b) * 10 + digitVal c) * 10 + digitVal d
      let mo := digitVal e * 10 + digitVal f
      let dy := digitVal g * 10 + digitVal h
      if 1 ≤ y && 1 ≤ mo && mo ≤ 12 && 1 ≤ dy && dy ≤ daysInMonth y mo then
        some ⟨y, mo, dy⟩
      else none
    else none
  | _ => none

/-- `strftime('%B %d, %Y')` month names. -/
def monthName : Nat → String
  | 1 => "January"   | 2 => "February" | 3 => "March"    | 4 => "April"
  | 5 => "May"       | 6 => "June"     | 7 => "July"     | 8 => "August"
  | 9 => "September" | 10 => "October" | 11 => "November" | 12 => "December"
  | _ => ""

/-- Two-digit zero-padded day (`%d`). -/
def pad2 (n : Nat) : String :=
  if n < 10 then "0" ++ toString n else toString n

/-- `d.strftime('%B %d, %Y')`. -/
def strftimeBDY (d : PyDateTime) : String :=
  monthName d.month ++ " " ++ pad2 d.day ++ ", " ++ toString d.year

/-! ## The extraction pipeline (`generate_feed.py`) -/

/-- `BASE_URL` constant of the source. -/
def BASE_URL : String := "https://www.westminster.org/messages/"

/-- One successfully extracted message record (the `details` dict).  The
`speaker` key may in principle be absent from the dict, hence `Option`. -/
structure MessageDetails where
  url : String
  title : String
  audio_url : String
  date : PyDateTime
  speaker : Option String
  description : String
  deriving Repr, DecidableEq

/-- `urljoin(BASE_URL, href)` for the root-relative hrefs the source feeds
it (`href.startswith('/')`): scheme-relative `//…` gets the scheme,
`/…` gets scheme and host. -/
def urljoinBase (href : String) : String :=
  if pyStartsWith href "//" then "https:" ++ href
  else "https://www.westminster.org" ++ href

/-- The href normalisation step of `scrape_messages`: only hrefs starting
with `'/'` are resolved; all others are used verbatim. -/
def normalizeHref (href : String) : String :=
  if pyStartsWith href "/" then urljoinBase href else href

/-- The keep condition of `scrape_messages`: contains `'/mediacast/'` and is
not the bare mediacast index URL. -/
def qualifies (href : String) : Bool :=
  strIn "/mediacast/" href && href != "https://www.westminster.org/mediacast/"

/-- All `href` values of `soup.find_all('a', href=True)`, in document
order. -/
def anchorHrefs (doc : Doc) : List String :=
  (docNodes doc).filterMap (fun n =>
    if isElemNamed "a" n then nodeAttr n "href" else none)

/-- The accumulation loop of `scrape_messages`: `acc` is both the `messages`
list and the `seen_urls` set (they always hold the same URLs). -/
def scrapeAux : List String → List String → List String
  | [], acc => acc
  | h :: hs, acc =>
    let href := normalizeHref h
    if qualifies href && !(acc.contains href) then scrapeAux hs (acc ++ [href])
    else scrapeAux hs acc

/-- `scrape_messages()`: fetch the listing page; on fetch failure return
`[]`; otherwise collect qualifying hrefs, deduplicated first-seen.  A
message link is just its URL (`{'url': href}`). -/
def scrape_messages (env : String → Option Doc) : List String :=
  match env BASE_URL with
  | none => []
  | some doc => scrapeAux (anchorHrefs doc) []

/-- The audio-URL resolution block of `get_message_details`, given the
`audio` tag: truthy direct `src`; else first nested `source`, whose `src`
subscript raises `KeyError` when absent; else first nested `a`, whose
`href` subscript raises `KeyError` when absent; else no `audio_url` key is
set (`ok none`). -/
def resolveAudioUrl (t : Node) : Except PyError (Option String) :=
  if truthyAttr t "src" then .ok (nodeAttr t "src")
  else match t.findDesc "source" with
    | some s =>
      match nodeAttr s "src" with
      | some v => .ok (some v)
      | none => .error (.keyError "src")
    | none =>
      match t.findDesc "a" with
      | some a =>
        match nodeAttr a "href" with
        | some v => .ok (some v)
        | none => .error (.keyError "href")
      | none => .ok none

/-- Audio-URL extraction from a whole page: find the marked audio element
(`ok none` if there is none, which later prints "No audio found" and
returns `None`). -/
def audioUrlOfDoc (doc : Doc) : Except PyError (Option String) :=
  match (docNodes doc).find? isWpAudio with
  | none => .ok none
  | some t => resolveAudioUrl t

/-- Title extraction: text of the first `h1`, else `"Unknown Title"`. -/
def titleOf (doc : Doc) : String :=
  match (docNodes doc).find? (isElemNamed "h1") with
  | some h => h.getTextStrip
  | none => "Unknown Title"

/-- `audio_url.split('/')[-1]`: the final path segment. -/
def lastSeg (url : String) : String := (pySplit url "/").getLastD ""

/-- The date block of `get_message_details`, applied to the audio URL:
regex-search the filename; on a match, `strptime` it (raising `ValueError`
on an invalid calendar date); otherwise fall back to `now`. -/
def extractDate (audio_url : String) (now : PyDateTime) : Except PyError PyDateTime :=
  match dateSearch (lastSeg audio_url) with
  | some m =>
    match strptimeYMD m with
    | some d => .ok d
    | none => .error (.valueError "time data does not match format")
  | none => .ok now

/-- The speaker block of `get_message_details`, applied to the filename:
percent-decode; if `" - "` occurs, take the last `split(" - ")` segment,
remove every `".mp3"`, strip whitespace, keep the part before the first
`'?'`.  If `" - "` does not occur the speaker is the fixed organisation
name.  (The inner `len(parts) > 1` guard of the source is kept verbatim;
when it failed the dict would simply lack the key, hence `none`.) -/
def speakerOf (audio_filename : String) : Option String :=
  let decoded := pyUnquote audio_filename
  if strIn " - " decoded then
    let parts := pySplit decoded " - "
    if parts.length > 1 then
      some ((pySplit (pyStrip (pyReplace (parts.getLastD "") ".mp3" "")) "?").headD "")
    else none
  else some "Westminster Chapel"

/-- The description f-string:
`f"Message by {details.get('speaker', 'Unknown')} on {date.strftime('%B %d, %Y')}"`. -/
def descrOf (speaker : Option String) (date : PyDateTime) : String :=
  "Message by " ++ speaker.getD "Unknown" ++ " on " ++ strftimeBDY date

/-- The record assembled at the end of `get_message_details`. -/
def mkDetails (message_url : String) (doc : Doc) (audio_url : String)
    (date : PyDateTime) : MessageDetails :=
  { url := message_url
    title := titleOf doc
    audio_url := audio_url
    date := date
    speaker := speakerOf (lastSeg audio_url)
    description := descrOf (speakerOf (lastSeg audio_url)) date }

/-- `get_message_details(message_url)`: `ok none` models the Python
`return None` paths (fetch failure, no resolvable audio); `error` models an
uncaught exception escaping the function. -/
def get_message_details (env : String → Option Doc) (now : PyDateTime)
    (message_url : String) : Except PyError (Option MessageDetails) :=
  match env message_url with
  | none => .ok none
  | some doc =>
    match audioUrlOfDoc doc with
    | .error e => .error e
    | .ok none => .ok none
    | .ok (some audio_url) =>
      match extractDate audio_url now with
      | .error e => .error e
      | .ok date => .ok (some (mkDetails message_url doc audio_url date))

/-! ## Feed construction (`generate_feed`) -/

/-- One feed item as podgen serialises it: title, enclosure (url/size/MIME
type), summary, publication date, link, authors. -/
structure Episode where
  title : String
  mediaUrl : String
  mediaSize : Nat
  mediaType : String
  summary : String
  pubDate : PyDateTime
  link : String
  authors : List String
  deriving Repr, DecidableEq

/-- The written RSS file: the fixed channel metadata of the `Podcast`
constructor plus the episode list. -/
structure FeedFile where
  name : String
  channelDescription : String
  website : String
  explicit : Bool
  image : String
  channelAuthors : List String
  owner : String × String
  category : String × String
  language : String
  episodes : List Episode
  deriving Repr, DecidableEq

/-- The body of the `try` block of the episode loop, as a fallible step: the
source wraps episode construction in `try/except` because the podgen
constructors may raise.  In this embedding the translated body `buildEpisode`
is total, but `generate_feed` is stated over an arbitrary fallible builder so
that the `except`-and-skip path is covered too. -/
def buildEpisode (msg : MessageDetails) : Except String Episode :=
  .ok { title := msg.title
        mediaUrl := msg.audio_url
        mediaSize := 0
        mediaType := "audio/mpeg"
        summary := msg.description
        pubDate := msg.date
        link := msg.url
        authors := match msg.speaker with | some s => [s] | none => [] }

/-- The episode loop: each message's episode is built; a raising builder is
logged and skipped (`except` branch), never aborting the loop.  (The
source's `if not msg: continue` guard never fires: every dict reaching the
loop is non-empty, i.e. truthy.) -/
def addEpisodes (build : MessageDetails → Except String Episode) :
    List MessageDetails → List Episode
  | [] => []
  | msg :: rest =>
    match build msg with
    | .ok ep => ep :: addEpisodes build rest
    | .error _ => addEpisodes build rest

/-- `generate_feed(messages)`: build the podcast object with its fixed
channel metadata, run the episode loop, then unconditionally serialise to
`podcast.xml`; the returned value is the written file. -/
def generate_feed (build : MessageDetails → Except String Episode)
    (messages : List MessageDetails) : FeedFile :=
  { name := "Westminster Chapel Messages"
    channelDescription := "Audio messages from Westminster Chapel of Bellevue."
    website := BASE_URL
    explicit := false
    image := "https://isaacy.github.io/westminster-podcast/cover.png"
    channelAuthors := ["Westminster Chapel - Bellevue"]
    owner := ("Westminster Chapel - Bellevue", "info@westminster.org")
    category := ("Religion & Spirituality", "Christianity")
    language := "en"
    episodes := addEpisodes build messages }

/-! ## The orchestrator (`main`) -/

/-- State of the extraction loop of `main`: the links on which
`get_message_details` has been invoked, the collected non-null results, and
the exception that escaped the loop, if any. -/
structure LoopState where
  consulted : List String
  collected : List MessageDetails
  err : Option PyError
  deriving Repr, DecidableEq

/-- The `for link_obj in message_links[:20]` loop body: invoke the detail
extractor; append a non-`None` result; an uncaught exception ends the loop
(and, in Python, the whole program) immediately. -/
def extractLoop (env : String → Option Doc) (now : PyDateTime) :
    List String → LoopState → LoopState
  | [], st => st
  | u :: us, st =>
    match get_message_details env now u with
    | .error e => { st with consulted := st.consulted ++ [u], err := some e }
    | .ok none => extractLoop env now us { st with consulted := st.consulted ++ [u] }
    | .ok (some d) =>
      extractLoop env now us
        { st with consulted := st.consulted ++ [u], collected := st.collected ++ [d] }

/-- Observable outcome of a run: the program either dies on an uncaught
exception, writes the feed file, or prints
`"No messages found to generate feed."` and writes nothing. -/
inductive Outcome where
  | aborted (e : PyError)
  | wrote (f : FeedFile)
  | nothingToDo
  deriving Repr, DecidableEq

/-- Result of `main()`: which links were processed, and the outcome. -/
structure MainResult where
  consulted : List String
  outcome : Outcome
  deriving Repr, DecidableEq

/-- The loop state `main` ends in (links capped to the first 20). -/
def loopStateOf (env : String → Option Doc) (now : PyDateTime) : LoopState :=
  extractLoop env now ((scrape_messages env).take 20) ⟨[], [], none⟩

/-- The exception escaping `main`'s loop, if any. -/
def errOf (env : String → Option Doc) (now : PyDateTime) : Option PyError :=
  (loopStateOf env now).err

/-- `details_list` as collected by `main`. -/
def collectedOf (env : String → Option Doc) (now : PyDateTime) : List MessageDetails :=
  (loopStateOf env now).collected

/-- `main()`: scrape the listing, process at most the first 20 links, then
either generate the feed (when `details_list` is non-empty) or print the
nothing-to-do notice; an exception escaping the loop aborts the run before
that branch. -/
def runMain (env : String → Option Doc) (now : PyDateTime) : MainResult :=
  let st := loopStateOf env now
  { consulted := st.consulted
    outcome :=
      match st.err with
      | some e => .aborted e
      | none =>
        if st.collected.isEmpty then .nothingToDo
        else .wrote (generate_feed buildEpisode st.collected) }

/-! ## Equality of `Except` results -/

instance {ε α : Type} [DecidableEq ε] [DecidableEq α] : DecidableEq (Except ε α) :=
  fun a b =>
    match a, b with
    | .ok x, .ok y => decidable_of_iff (x = y) (by simp)
    | .error x, .error y => decidable_of_iff (x = y) (by simp)
    | .ok _, .error _ => isFalse (by simp)
    | .error _, .ok _ => isFalse (by simp)

/-! ## Declarative companions used to state the claims

The definitions in this section are written from the words of the
specification claims (not from the source); each is compared against the
corresponding source-derived function above. -/

/-- Fuel-driven worker for `dedupFS` (the fuel, initially the list length,
only makes the recursion structural; it never runs out). -/
def dedupFSGo : Nat → List String → List String
  | _, [] => []
  | 0, l => l
  | fuel + 1, x :: xs => x :: dedupFSGo fuel (xs.filter (fun y => y != x))

/-- First-seen deduplication, stated declaratively: keep each URL's first
occurrence, erase its later duplicates. -/
def dedupFS (l : List String) : List String := dedupFSGo l.length l

/-- Modelled from the claim's words (C5): resolve relative paths against the
listing URL's base — every relative href, not only root-relative ones.
Absolute URLs pass through, `//…` is scheme-relative, `/…` is
host-relative, and any other href is relative to the listing directory. -/
def claimResolve (href : String) : String :=
  if strIn "://" href then href
  else if pyStartsWith href "//" then "https:" ++ href
  else if pyStartsWith href "/" then "https://www.westminster.org" ++ href
  else "https://www.westminster.org/messages/" ++ href

/-- Modelled from the claim's words (C5): enumerate anchors, resolve every
href against the base, keep qualifying links, deduplicate first-seen. -/
def claimScrape (doc : Doc) : List String :=
  dedupFS (((anchorHrefs doc).map claimResolve).filter qualifies)

/-- The amended speaker computation (C2), in the words of the corrected
claim: percent-decode (`'+'` stays); on a `" - "` hit take the last
segment, remove every occurrence of `".mp3"`, trim surrounding whitespace,
then keep only the text before the first `'?'`. -/
def amendedSpeaker (fname : String) : String :=
  let d := pyUnquote fname
  if strIn " - " d then
    (pySplit (pyStrip (pyReplace ((pySplit d " - ").getLastD "") ".mp3" "")) "?").headD ""
  else "Westminster Chapel"

/-- The amended audio-URL resolution (C4), in the words of the corrected
claim: a non-empty direct `src` wins; otherwise a nested `source` element,
if present, is committed to — its missing `src` raises a key error rather
than falling through; otherwise a nested link is committed to likewise;
only with none of the three present does resolution yield nothing. -/
def amendedResolve (t : Node) : Except PyError (Option String) :=
  if truthyAttr t "src" then .ok (nodeAttr t "src")
  else match t.findDesc "source" with
    | some s =>
      match nodeAttr s "src" with
      | some v => .ok (some v)
      | none => .error (.keyError "src")
    | none =>
      match t.findDesc "a" with
      | some a =>
        match nodeAttr a "href" with
        | some v => .ok (some v)
        | none => .error (.keyError "href")
      | none => .ok none

/-- The feed file written by a run, if any. -/
def feedOf (r : MainResult) : Option FeedFile :=
  match r.outcome with
  | .wrote f => some f
  | _ => none

/-! ## Concrete runs used as counterexamples and witnesses -/

/-- A fixed extraction time for concrete runs. -/
def now0 : PyDateTime := ⟨2024, 1, 2⟩

/-- A message-page URL whose page has a `source` child without `src`. -/
def L1u : String := "https://www.westminster.org/mediacast/bad-source"

/-- A message-page URL whose page extracts without error. -/
def L2u : String := "https://www.westminster.org/mediacast/good-message"

/-- Listing page linking `L1u` then `L2u`. -/
def listing1 : Doc :=
  .ofList [el "a" [("href", L1u)] [], el "a" [("href", L2u)] []]

/-- Detail page: marked audio element without direct `src`, with a nested
`source` element that lacks the `src` attribute. -/
def pageBadSource : Doc :=
  .ofList [el "audio" [("class", "wp-audio-shortcode")] [el "source" [] []]]

/-- Detail page that extracts fully: `h1` title and a direct audio `src`
whose filename carries a parsable date. -/
def pageGood : Doc :=
  .ofList
    [el "h1" [] [Node.text "Good Message"],
     el "audio"
       [("class", "wp-audio-shortcode"),
        ("src", "https://cdn.example.org/files/2025-11-09+Message+-+Jane+Doe.mp3")] []]

/-- Environment for the aborting run: a bad page first, a good page second. -/
def env1 : String → Option Doc := fun u =>
  if u == BASE_URL then some listing1
  else if u == L1u then some pageBadSource
  else if u == L2u then some pageGood
  else none

/-- Environment whose listing links only the good page. -/
def envGood : String → Option Doc := fun u =>
  if u == BASE_URL then some (.ofList [el "a" [("href", L2u)] []])
  else if u == L2u then some pageGood
  else none

/-- Environment with no reachable pages at all (every fetch fails). -/
def envNone : String → Option Doc := fun _ => none

/-- Listing page whose only anchor is relative without a leading slash. -/
def listing5 : Doc := .ofList [el "a" [("href", "mediacast/talk1")] []]

/-- Environment serving only `listing5`. -/
def env5 : String → Option Doc := fun u =>
  if u == BASE_URL then some listing5 else none

/-- Message URL for the C4 second scenario. -/
def L4u : String := "https://www.westminster.org/mediacast/source-vs-link"

/-- Detail page: audio element without `src`, nested `source` without
`src`, and a nested link that does carry an href. -/
def pageSourceThenLink : Doc :=
  .ofList
    [el "audio" [("class", "wp-audio-shortcode")]
       [el "source" [] [], el "a" [("href", "https://x/fallback.mp3")] []]]

/-- Environment for the C4 second scenario. -/
def env4 : String → Option Doc := fun u =>
  if u == BASE_URL then some (.ofList [el "a" [("href", L4u)] []])
  else if u == L4u then some pageSourceThenLink
  else none

/-- Detail page: marked audio element with no `src`, no `source` child and
no link child at all. -/
def pageAudioEmpty : Doc :=
  .ofList [el "audio" [("class", "wp-audio-shortcode")] []]

/-- Message URL for the empty-title run. -/
def M1u : String := "https://www.westminster.org/mediacast/empty-title"

/-- Detail page whose `h1` has no text at all. -/
def pageEmptyH1 : Doc :=
  .ofList
    [el "h1" [] [],
     el "audio"
       [("class", "wp-audio-shortcode"),
        ("src", "https://x/m/2025-11-09+Message.mp3")] []]

/-- Environment for the empty-title run. -/
def env8a : String → Option Doc := fun u =>
  if u == BASE_URL then some (.ofList [el "a" [("href", M1u)] []])
  else if u == M1u then some pageEmptyH1 else none

/-- Message URL for the empty-audio-URL run. -/
def M2u : String := "https://www.westminster.org/mediacast/empty-src"

/-- Detail page whose audio element resolves through a nested `source`
carrying an empty `src` string. -/
def pageEmptySrc : Doc :=
  .ofList
    [el "h1" [] [Node.text "T"],
     el "audio" [("class", "wp-audio-shortcode")] [el "source" [("src", "")] []]]

/-- Environment for the empty-audio-URL run. -/
def env8b : String → Option Doc := fun u =>
  if u == BASE_URL then some (.ofList [el "a" [("href", M2u)] []])
  else if u == M2u then some pageEmptySrc else none

/-- An always-raising episode builder (models a podgen constructor raising
on every record). -/
def failBuild : MessageDetails → Except String Episode := fun _ => .error "boom"

/-- A sample extracted record, for witnesses. -/
def sampleDetails : MessageDetails :=
  { url := L2u
    title := "Good Message"
    audio_url := "https://cdn.example.org/files/2025-11-09+Message+-+Jane+Doe.mp3"
    date := ⟨2025, 11, 9⟩
    speaker := some "Westminster Chapel"
    description := "Message by Westminster Chapel on November 09, 2025" }

/-- Modelled from the claim's words (C2): after the last `" - "` segment is
taken, strip a TRAILING `".mp3"` suffix, then the trailing query-string
portion (text after `'?'`), then trim surrounding whitespace. -/
def claimSpeaker (fname : String) : String :=
  let d := pyUnquote fname
  if strIn " - " d then
    let last := (pySplit d " - ").getLastD ""
    let noMp3 :=
      if startsWithL (".mp3".data.reverse) last.data.reverse
      then String.mk (last.data.take (last.data.length - 4)) else last
    pyStrip ((pySplit noMp3 "?").headD "")
  else "Westminster Chapel"

/-- Message URL for a page whose audio element offers no URL at all. -/
def L5u : String := "https://www.westminster.org/mediacast/no-audio-url"

/-- Environment serving only the no-URL audio page. -/
def env4e : String → Option Doc := fun u => if u == L5u then some pageAudioEmpty else none

/-- The `source` child of `pageBadSource`, without attributes. -/
def sourceT : Node := el "source" [] []

/-- The audio element of `pageBadSource`. -/
def audioT : Node := el "audio" [("class", "wp-audio-shortcode")] [sourceT]

/-- The record extracted from `pageEmptyH1` (note the empty title). -/
def details8a : MessageDetails :=
  { url := M1u, title := "", audio_url := "https://x/m/2025-11-09+Message.mp3",
    date := ⟨2025, 11, 9⟩, speaker := some "Westminster Chapel",
    description := "Message by Westminster Chapel on November 09, 2025" }

/-! ## General lemmas about the embedded functions -/

/-- Enough fuel makes `dedupFSGo` agree with `dedupFS`. -/
theorem dedupFSGo_of_le (fuel : Nat) :
    ∀ l : List String, l.length ≤ fuel → dedupFSGo fuel l = dedupFS l := by
  induction fuel using Nat.strong_induction_on with
  | _ fuel ih =>
    intro l hl
    cases l with
    | nil => cases fuel <;> simp [dedupFSGo, dedupFS]
    | cons x xs =>
      simp only [List.length_cons] at hl
      cases fuel with
      | zero => omega
      | succ fuel =>
        simp only [dedupFSGo, dedupFS, List.length_cons]
        have hf : (xs.filter (fun y => y != x)).length ≤ xs.length :=
          List.length_filter_le _ _
        rw [ih fuel (by omega) _ (by omega), ih xs.length (by omega) _ (by omega)]

/-- Recursive characterisation of first-seen deduplication. -/
theorem dedupFS_cons (x : String) (xs : List String) :
    dedupFS (x :: xs) = x :: dedupFS (xs.filter (fun y => y != x)) := by
  simp only [dedupFS, List.length_cons, dedupFSGo]
  rw [dedupFSGo_of_le _ _ (List.length_filter_le _ _)]
  rfl

/-- A Python split never returns an empty list of pieces. -/
theorem splitGo_length_pos (sep0 : Char) (sepRest : List Char) :
    ∀ (l cur : List Char) (skip : Nat), 0 < (splitGo sep0 sepRest l cur skip).length := by
  intro l
  induction l with
  | nil => intro cur skip; simp [splitGo]
  | cons c rest ih =>
    intro cur skip
    match skip with
    | skip + 1 => exact ih cur skip
    | 0 =>
      simp only [splitGo]
      by_cases h : startsWithL (sep0 :: sepRest) (c :: rest) = true
      · simp [h]
      · simp only [Bool.not_eq_true] at h
        simp only [h, Bool.false_eq_true, if_false]
        exact ih (c :: cur) 0

/-- When the separator occurs in the input, the split has at least two
pieces. -/
theorem occursIn_splitGo_length (sep0 : Char) (sepRest : List Char) :
    ∀ (l cur : List Char), occursIn (sep0 :: sepRest) l = true →
      1 < (splitGo sep0 sepRest l cur 0).length := by
  intro l
  induction l with
  | nil => intro cur h; simp [occursIn, startsWithL] at h
  | cons c rest ih =>
    intro cur h
    simp only [occursIn, Bool.or_eq_true] at h
    simp only [splitGo]
    by_cases hs : startsWithL (sep0 :: sepRest) (c :: rest) = true
    · simp only [hs, if_true, List.length_cons]
      have := splitGo_length_pos sep0 sepRest rest [] sepRest.length
      omega
    · simp only [Bool.not_eq_true] at hs
      simp only [hs, Bool.false_eq_true, false_or] at h
      simp only [hs, Bool.false_eq_true, if_false]
      exact ih (c :: cur) h

/-- The source's `len(parts) > 1` guard always holds once `" - "` occurs in
the decoded filename. -/
theorem strIn_pySplit_length (d : String) (h : strIn " - " d = true) :
    1 < (pySplit d " - ").length := by
  have hd : (" - ").data = [' ', '-', ' '] := rfl
  simp only [pySplit, hd, List.length_map]
  exact occursIn_splitGo_length _ _ _ _ h

/-- The regex scan misses exactly when no position matches the date shape. -/
theorem dateSearchAux_none : ∀ (l : List Char),
    (∀ i, dateShapeAt (l.drop i) = false) → dateSearchAux l = none := by
  intro l
  induction l with
  | nil => intro _; rfl
  | cons c rest ih =>
    intro h
    have h0 := h 0
    simp only [List.drop_zero] at h0
    simp only [dateSearchAux, h0, Bool.false_eq_true, if_false]
    exact ih (fun i => by have hi := h (i + 1); rwa [List.drop_succ_cons] at hi)

/-- The regex scan returns the match at the leftmost matching position. -/
theorem dateSearchAux_leftmost : ∀ (l : List Char) (j : Nat),
    dateShapeAt (l.drop j) = true → (∀ k < j, dateShapeAt (l.drop k) = false) →
    dateSearchAux l = some ((l.drop j).take 10) := by
  intro l
  induction l with
  | nil =>
    intro j h _
    rw [List.drop_nil] at h
    simp [dateShapeAt] at h
  | cons c rest ih =>
    intro j h hk
    cases j with
    | zero =>
      simp only [List.drop_zero] at h ⊢
      simp [dateSearchAux, h]
    | succ j =>
      have h0 : dateShapeAt ((c :: rest).drop 0) = false := hk 0 (Nat.succ_pos j)
      simp only [List.drop_zero] at h0
      simp only [dateSearchAux, h0, Bool.false_eq_true, if_false, List.drop_succ_cons]
      rw [List.drop_succ_cons] at h
      exact ih j h (fun k hkj => by
        have hh := hk (k + 1) (by omega)
        rwa [List.drop_succ_cons] at hh)

/-- Positions at or past the end never match, so a bounded absence of
matches is a total absence. -/
theorem dateShape_false_of_bounded (l : List Char)
    (h : ∀ i < l.length, dateShapeAt (l.drop i) = false) :
    ∀ i, dateShapeAt (l.drop i) = false := by
  intro i
  by_cases hi : i < l.length
  · exact h i hi
  · rw [List.drop_eq_nil_of_le (by omega)]; rfl

/-- Membership in an accumulator extended on the right. -/
theorem contains_append_singleton (acc : List String) (n x : String) :
    (acc ++ [n]).contains x = (acc.contains x || x == n) := by
  induction acc with
  | nil =>
    simp only [List.nil_append, List.contains_cons]
    cases hxn : x == n <;> simp
  | cons a acc ih =>
    simp only [List.cons_append, List.contains_cons, ih, Bool.or_assoc]

/-- The seen-set loop of `scrape_messages` computes first-seen
deduplication of the filtered, normalised hrefs. -/
theorem scrapeAux_spec : ∀ (hs acc : List String),
    scrapeAux hs acc =
      acc ++ dedupFS (((hs.map normalizeHref).filter qualifies).filter
        (fun x => !(acc.contains x))) := by
  intro hs
  induction hs with
  | nil => intro acc; simp [scrapeAux, dedupFS, dedupFSGo]
  | cons h hs ih =>
    intro acc
    by_cases hq : qualifies (normalizeHref h) = true
    · by_cases hc : acc.contains (normalizeHref h) = true
      · have hm : normalizeHref h ∈ acc := by simpa using hc
        rw [show scrapeAux (h :: hs) acc = scrapeAux hs acc from by
          simp only [scrapeAux, hq, hc, Bool.not_true, Bool.and_false,
            Bool.false_eq_true, if_false]]
        rw [ih acc]
        simp [List.filter_cons, hq, hm]
      · have hc' : acc.contains (normalizeHref h) = false := by
          simpa using hc
        rw [show scrapeAux (h :: hs) acc = scrapeAux hs (acc ++ [normalizeHref h]) from by
          simp only [scrapeAux, hq, hc', Bool.not_false, Bool.and_true, if_true]]
        rw [ih (acc ++ [normalizeHref h])]
        simp only [List.map_cons, List.filter_cons, hq, if_true, hc', Bool.not_false,
          Bool.false_eq_true, if_false, Bool.not_eq_true', Bool.not_eq_false,
          dedupFS_cons, List.filter_filter, List.append_assoc, List.singleton_append,
          List.cons_append, List.nil_append]
        have hfe : List.filter (fun a => !(acc ++ [normalizeHref h]).contains a && qualifies a)
              (List.map normalizeHref hs) =
            List.filter (fun a => a != normalizeHref h && (!acc.contains a && qualifies a))
              (List.map normalizeHref hs) := by
          apply List.filter_congr
          intro x _
          simp only [contains_append_singleton, Bool.not_or, bne]
          cases hxn : x == normalizeHref h <;> cases hca : acc.contains x <;>
            cases hqx : qualifies x <;> simp
        rw [hfe]
    · have hq' : qualifies (normalizeHref h) = false := by
        simp only [Bool.not_eq_true] at hq; exact hq
      rw [show scrapeAux (h :: hs) acc = scrapeAux hs acc from by
        simp only [scrapeAux, hq', Bool.false_and, Bool.false_eq_true, if_false]]
      rw [ih acc]
      simp [List.filter_cons, hq']

/-- The links consulted by the extraction loop extend the incoming state by
some leading part of the pending link list. -/
theorem extractLoop_consulted (env : String → Option Doc) (now : PyDateTime) :
    ∀ (links : List String) (st : LoopState),
      ∃ p r : List String, (extractLoop env now links st).consulted = st.consulted ++ p ∧
        p ++ r = links := by
  intro links
  induction links with
  | nil => intro st; exact ⟨[], [], by simp [extractLoop], rfl⟩
  | cons u us ih =>
    intro st
    cases hg : get_message_details env now u with
    | error e =>
      refine ⟨[u], us, ?_, rfl⟩
      simp [extractLoop, hg]
    | ok o =>
      cases o with
      | none =>
        obtain ⟨p, r, hp, hr⟩ := ih { st with consulted := st.consulted ++ [u] }
        refine ⟨u :: p, r, ?_, by simp [hr]⟩
        simp only [extractLoop, hg]
        rw [hp]
        simp
      | some d =>
        obtain ⟨p, r, hp, hr⟩ := ih
          { st with consulted := st.consulted ++ [u], collected := st.collected ++ [d] }
        refine ⟨u :: p, r, ?_, by simp [hr]⟩
        simp only [extractLoop, hg]
        rw [hp]
        simp

/-- When every pending extraction returns without raising, the loop
processes every link, raises nothing, and collects exactly the non-`None`
results in order. -/
theorem extractLoop_ok (env : String → Option Doc) (now : PyDateTime) :
    ∀ (links : List String) (st : LoopState),
      (∀ u ∈ links, (get_message_details env now u).toOption.isSome = true) →
      (extractLoop env now links st).err = st.err ∧
      (extractLoop env now links st).consulted = st.consulted ++ links ∧
      (extractLoop env now links st).collected =
        st.collected ++ links.filterMap
          (fun u => (get_message_details env now u).toOption.join) := by
  intro links
  induction links with
  | nil => intro st _; simp [extractLoop]
  | cons u us ih =>
    intro st h
    have hu := h u (by simp)
    cases hg : get_message_details env now u with
    | error e => rw [hg] at hu; simp [Except.toOption] at hu
    | ok o =>
      have hrest : ∀ v ∈ us, (get_message_details env now v).toOption.isSome = true :=
        fun v hv => h v (by simp [hv])
      cases o with
      | none =>
        have hstep := ih { st with consulted := st.consulted ++ [u] } hrest
        simp only [extractLoop, hg]
        refine ⟨hstep.1, ?_, ?_⟩
        · rw [hstep.2.1]; simp
        · rw [hstep.2.2]; simp [hg, Except.toOption]
      | some d =>
        have hstep := ih
          { st with consulted := st.consulted ++ [u], collected := st.collected ++ [d] } hrest
        simp only [extractLoop, hg]
        refine ⟨hstep.1, ?_, ?_⟩
        · rw [hstep.2.1]; simp
        · rw [hstep.2.2]; simp [hg, Except.toOption]

/-- Every successfully extracted record carries the date computed by
`extractDate` from its own audio URL. -/
theorem gmd_date_inv (env : String → Option Doc) (now : PyDateTime)
    (u : String) (d : MessageDetails)
    (h : get_message_details env now u = .ok (some d)) :
    extractDate d.audio_url now = .ok d.date := by
  unfold get_message_details at h
  cases he : env u with
  | none => rw [he] at h; simp at h
  | some doc =>
    rw [he] at h
    dsimp only at h
    cases ha : audioUrlOfDoc doc with
    | error e => rw [ha] at h; simp at h
    | ok o =>
      rw [ha] at h
      cases o with
      | none => simp at h
      | some au =>
        dsimp only at h
        cases hd : extractDate au now with
        | error e => rw [hd] at h; simp at h
        | ok dt =>
          rw [hd] at h
          dsimp only at h
          simp only [Except.ok.injEq, Option.some.injEq] at h
          rw [← h]
          simpa [mkDetails] using hd

/-- Any property implied by successful extraction holds of every record the
loop collects. -/
theorem extractLoop_collected_inv (env : String → Option Doc) (now : PyDateTime)
    (P : MessageDetails → Prop)
    (hP : ∀ u d, get_message_details env now u = .ok (some d) → P d) :
    ∀ (links : List String) (st : LoopState),
      (∀ d ∈ st.collected, P d) →
      ∀ d ∈ (extractLoop env now links st).collected, P d := by
  intro links
  induction links with
  | nil => intro st h; simpa [extractLoop] using h
  | cons u us ih =>
    intro st h
    cases hg : get_message_details env now u with
    | error e =>
      simp only [extractLoop, hg]
      exact h
    | ok o =>
      cases o with
      | none =>
        simp only [extractLoop, hg]
        exact ih _ h
      | some d =>
        simp only [extractLoop, hg]
        refine ih _ ?_
        intro d' hd'
        simp only [List.mem_append, List.mem_singleton] at hd'
        cases hd' with
        | inl hmem => exact h d' hmem
        | inr heq => exact heq ▸ hP u d hg

/-- The episode loop keeps exactly the episodes whose construction did not
raise, in order. -/
theorem addEpisodes_filterMap (build : MessageDetails → Except String Episode) :
    ∀ l : List MessageDetails,
      addEpisodes build l = l.filterMap (fun m => (build m).toOption) := by
  intro l
  induction l with
  | nil => rfl
  | cons m rest ih =>
    cases hb : build m with
    | ok ep => simp [addEpisodes, hb, ih, List.filterMap_cons, Except.toOption]
    | error e => simp [addEpisodes, hb, ih, List.filterMap_cons, Except.toOption]

/-- Every episode the total builder produces inherits its enclosure URL and
publication date from some input record. -/
theorem mem_addEpisodes_buildEpisode :
    ∀ (l : List MessageDetails) (ep : Episode), ep ∈ addEpisodes buildEpisode l →
      ∃ d ∈ l, ep.mediaUrl = d.audio_url ∧ ep.pubDate = d.date := by
  intro l
  induction l with
  | nil => intro ep h; simp [addEpisodes] at h
  | cons m rest ih =>
    intro ep h
    simp only [addEpisodes, buildEpisode, List.mem_cons] at h
    cases h with
    | inl heq => exact ⟨m, by simp, by rw [heq], by rw [heq]⟩
    | inr hmem =>
      obtain ⟨d, hd, h1, h2⟩ := ih ep hmem
      exact ⟨d, by simp [hd], h1, h2⟩

/-- A run that wrote a file completed its loop without an exception, and
the file is the feed built from the collected records. -/
theorem runMain_wrote (env : String → Option Doc) (now : PyDateTime) (f : FeedFile)
    (h : (runMain env now).outcome = .wrote f) :
    errOf env now = none ∧ f = generate_feed buildEpisode (collectedOf env now) := by
  unfold runMain at h
  simp only at h
  cases he : (loopStateOf env now).err with
  | some e => rw [he] at h; simp at h
  | none =>
    rw [he] at h
    constructor
    · exact he
    · by_cases hc : (loopStateOf env now).collected.isEmpty = true
      · rw [if_pos hc] at h; simp at h
      · rw [if_neg hc] at h
        simp only [Outcome.wrote.injEq] at h
        rw [← h]
        rfl

/-! ## Claim C1 (corrected) -/

/-- Claim C1, counterexample: the claim says an unexpected error while
extracting one link's details skips only that link and the run continues.
In the run over `env1` the first link's page has a `source` element without
`src`; the key lookup raises, the run aborts having consulted only that
first link, and no feed is written — although the second link on its own
extracts successfully (its extraction result is a value, not `None`). -/
theorem c1_counterexample :
    runMain env1 now0 = { consulted := [L1u], outcome := .aborted (.keyError "src") } ∧
    (get_message_details env1 now0 L2u).toOption.join.isSome = true :=
  ⟨by decide, by decide⟩

/-- Claim C1, amended: only the failures `get_message_details` itself turns
into `None` (fetch failure, unresolvable audio) are skipped per link.  When
no link's extraction raises, the loop runs to the end of the capped link
list, no exception escapes, and the collected results are exactly the
non-`None` extraction results in listing order.  (An extraction that does
raise aborts the whole run, as the counterexample shows.) -/
theorem c1_amended_holds (env : String → Option Doc) (now : PyDateTime)
    (h : ∀ u ∈ (scrape_messages env).take 20,
      (get_message_details env now u).toOption.isSome = true) :
    errOf env now = none ∧
    (runMain env now).consulted = (scrape_messages env).take 20 ∧
    collectedOf env now = ((scrape_messages env).take 20).filterMap
      (fun u => (get_message_details env now u).toOption.join) := by
  have hok := extractLoop_ok env now ((scrape_messages env).take 20) ⟨[], [], none⟩ h
  refine ⟨hok.1, ?_, ?_⟩
  · show (loopStateOf env now).consulted = _
    rw [show loopStateOf env now =
      extractLoop env now ((scrape_messages env).take 20) ⟨[], [], none⟩ from rfl]
    rw [hok.2.1]
    simp
  · show (extractLoop env now ((scrape_messages env).take 20) ⟨[], [], none⟩).collected = _
    rw [hok.2.2]
    simp

/-- Claim C1, witness: the amended theorem applied to the environment whose
single link extracts without raising. -/
theorem c1_amended_witness :
    (∀ u ∈ (scrape_messages envGood).take 20,
      (get_message_details envGood now0 u).toOption.isSome = true) ∧
    (errOf envGood now0 = none ∧
     (runMain envGood now0).consulted = (scrape_messages envGood).take 20 ∧
     collectedOf envGood now0 = ((scrape_messages envGood).take 20).filterMap
       (fun u => (get_message_details envGood now0 u).toOption.join)) :=
  ⟨by decide, c1_amended_holds envGood now0 (by decide)⟩

/-! ## Claim C2 (corrected) -/

/-- Claim C2, counterexample: on the claim's own example filename
`2025-11-09+Message+-+Jane+Doe.mp3` the extracted speaker is the default
"Westminster Chapel", not "Jane Doe", because percent-decoding leaves `'+'`
intact and the `" - "` separator is therefore absent.  On the two probe
filenames the code also deviates from the claim's post-processing (strip a
trailing `".mp3"` and the query portion, then trim — `claimSpeaker`): the
code removes EVERY `".mp3"` occurrence, and it trims before cutting at
`'?'`, which can leave trailing whitespace. -/
theorem c2_counterexample :
    speakerOf "2025-11-09+Message+-+Jane+Doe.mp3" = some "Westminster Chapel" ∧
    speakerOf "X%20-%20Ja.mp3ne.mp3" = some "Jane" ∧
    claimSpeaker "X%20-%20Ja.mp3ne.mp3" = "Ja.mp3ne" ∧
    speakerOf "A%20-%20Jane%20?x" = some "Jane " ∧
    claimSpeaker "A%20-%20Jane%20?x" = "Jane" := by decide

/-- Claim C2, amended: percent-decode the filename (a `'+'` is not
decoded); if the decoded name contains `" - "`, split on all its
occurrences, take the last segment, remove every occurrence of `".mp3"`,
trim surrounding whitespace, then keep only the text before the first
`'?'`; otherwise the speaker is the fixed organisation name.  In
particular, the claim's plus-encoded example yields the default
organisation name. -/
theorem c2_amended_holds :
    speakerOf "2025-11-09+Message+-+Jane+Doe.mp3" = some "Westminster Chapel" ∧
    ∀ f : String, speakerOf f = some (amendedSpeaker f) := by
  refine ⟨by decide, fun f => ?_⟩
  unfold speakerOf amendedSpeaker
  cases h : strIn " - " (pyUnquote f) with
  | false => simp [h]
  | true =>
    have hlen := strIn_pySplit_length _ h
    simp [h, hlen]

/-! ## Claim C3 (confirmed) -/

/-- Claim C3: the date is extracted from the final path segment of the
audio URL.  If no position of that filename matches the
four-digits dash two-digits dash two-digits shape, the date is the current
timestamp `now`; if some position matches, the leftmost match is taken and,
when it parses as a calendar date, that date is the record's date. -/
theorem c3_holds (url : String) (now : PyDateTime) :
    ((∀ i < (lastSeg url).data.length, dateShapeAt ((lastSeg url).data.drop i) = false) →
       extractDate url now = .ok now) ∧
    (∀ (j : Nat) (d : PyDateTime), dateShapeAt ((lastSeg url).data.drop j) = true →
       (∀ k < j, dateShapeAt ((lastSeg url).data.drop k) = false) →
       strptimeYMD ⟨((lastSeg url).data.drop j).take 10⟩ = some d →
       extractDate url now = .ok d) := by
  constructor
  · intro h
    have hall := dateShape_false_of_bounded _ h
    simp only [extractDate, dateSearch, dateSearchAux_none _ hall, Option.map_none']
  · intro j d hj hk hp
    simp only [extractDate, dateSearch, dateSearchAux_leftmost _ j hj hk,
      Option.map_some', hp]

/-- Claim C3, witness: a filename with no date-shaped substring falls back
to `now0`; the dated example filename parses to 2025-11-09. -/
theorem c3_witness :
    extractDate "https://x/plain_sound.mp3" now0 = .ok now0 ∧
    extractDate "https://cdn.example.org/files/2025-11-09+Message+-+Jane+Doe.mp3" now0 =
      .ok ⟨2025, 11, 9⟩ := by
  constructor
  · exact (c3_holds "https://x/plain_sound.mp3" now0).1 (by decide)
  · exact (c3_holds "https://cdn.example.org/files/2025-11-09+Message+-+Jane+Doe.mp3"
      now0).2 0 ⟨2025, 11, 9⟩ (by decide) (by decide) (by decide)

/-! ## Claim C4 (corrected) -/

/-- Claim C4, counterexample: the claim says that when neither the direct
`src` nor the nested `source` yields a URL, resolution falls through to the
nested link, and that with no URL at all the extractor returns nothing.
Instead, on a page whose audio element has a `source` child without `src`
(`L1u`), and also on one that moreover has a link child carrying an href
(`L4u`), the extractor raises an uncaught `KeyError` — it neither falls
through nor returns nothing. -/
theorem c4_counterexample :
    get_message_details env1 now0 L1u = .error (.keyError "src") ∧
    get_message_details env4 now0 L4u = .error (.keyError "src") :=
  ⟨by decide, by decide⟩

/-- Claim C4, amended: resolution prefers a non-empty direct `src`; else it
commits to the first nested `source` element if one exists (raising a key
error when that element lacks `src`, never consulting the link); else it
commits to the first nested link likewise; only when the audio element has
none of the three does the page yield no audio URL, in which case no
record is produced (`get_message_details` returns `None`). -/
theorem c4_amended_holds (t : Node) (env : String → Option Doc) (now : PyDateTime)
    (url : String) (doc : Doc)
    (he : env url = some doc) (ha : audioUrlOfDoc doc = .ok none) :
    resolveAudioUrl t = amendedResolve t ∧
    get_message_details env now url = .ok none := by
  refine ⟨rfl, ?_⟩
  unfold get_message_details
  rw [he]
  dsimp only
  rw [ha]

/-- Claim C4, witness: the amended theorem applied to an audio element with
no `src`, no `source` and no link, on the page served at `L5u`. -/
theorem c4_amended_witness :
    (env4e L5u = some pageAudioEmpty ∧ audioUrlOfDoc pageAudioEmpty = .ok none) ∧
    (resolveAudioUrl (el "audio" [] []) = amendedResolve (el "audio" [] []) ∧
      get_message_details env4e now0 L5u = .ok none) :=
  ⟨⟨by decide, by decide⟩,
   c4_amended_holds (el "audio" [] []) env4e now0 L5u pageAudioEmpty
     (by decide) (by decide)⟩

/-! ## Claim C5 (corrected) -/

/-- Claim C5, counterexample: a listing whose single anchor has the
relative href `mediacast/talk1` (no leading slash).  Under the claim's
resolve-all-relative-paths reading (`claimScrape`) it qualifies after
resolution and M = 1 entry results; the code resolves only hrefs starting
with `'/'`, checks the marker against the raw href, and returns no
entries. -/
theorem c5_counterexample :
    env5 BASE_URL = some listing5 ∧
    scrape_messages env5 = [] ∧
    claimScrape listing5 = ["https://www.westminster.org/messages/mediacast/talk1"] := by
  decide

/-- Claim C5, amended: the scraper enumerates all anchors with an href in
document order, resolves only root-relative hrefs (those starting with
`'/'`) against the site origin and uses every other href verbatim, keeps
hrefs containing `/mediacast/` other than the bare index URL, and returns
them deduplicated by exact string equality in first-seen order. -/
theorem c5_amended_holds (env : String → Option Doc) (doc : Doc)
    (h : env BASE_URL = some doc) :
    scrape_messages env =
      dedupFS (((anchorHrefs doc).map normalizeHref).filter qualifies) := by
  unfold scrape_messages
  rw [h]
  dsimp only
  rw [scrapeAux_spec]
  rw [show (fun x => !(([] : List String).contains x)) = (fun _ : String => true) from
    funext (fun x => rfl)]
  rw [List.filter_true]
  simp

/-- Claim C5, witness: the amended theorem applied to the two-anchor
listing of `env1`. -/
theorem c5_amended_witness :
    env1 BASE_URL = some listing1 ∧
    scrape_messages env1 =
      dedupFS (((anchorHrefs listing1).map normalizeHref).filter qualifies) :=
  ⟨by decide, c5_amended_holds env1 listing1 (by decide)⟩

/-! ## Claim C6 (confirmed) -/

/-- Claim C6: the orchestrator consults the detail extractor on a leading
part of the first 20 listing entries only — at most 20 links, in listing
order; entries beyond the 20th are never processed. -/
theorem c6_holds (env : String → Option Doc) (now : PyDateTime) :
    (runMain env now).consulted.length ≤ 20 ∧
    ∃ r, (runMain env now).consulted ++ r = (scrape_messages env).take 20 := by
  obtain ⟨p, r, hp, hr⟩ :=
    extractLoop_consulted env now ((scrape_messages env).take 20) ⟨[], [], none⟩
  have hcon : (runMain env now).consulted = p := by
    show (loopStateOf env now).consulted = p
    rw [show loopStateOf env now =
      extractLoop env now ((scrape_messages env).take 20) ⟨[], [], none⟩ from rfl]
    rw [hp]
    simp
  constructor
  · rw [hcon]
    calc p.length ≤ (p ++ r).length := by simp
      _ = ((scrape_messages env).take 20).length := by rw [hr]
      _ ≤ 20 := by
          rw [List.length_take]
          omega
  · exact ⟨r, by rw [hcon, hr]⟩

/-! ## Claim C7 (confirmed) -/

/-- Claim C7: when the extraction loop completes without an exception, an
empty `details_list` leads to the nothing-to-do notice and no file is
written, while a non-empty one leads to the Feed Builder being invoked on
exactly the collected records. -/
theorem c7_holds (env : String → Option Doc) (now : PyDateTime)
    (h : errOf env now = none) :
    (collectedOf env now = [] → (runMain env now).outcome = .nothingToDo) ∧
    (collectedOf env now ≠ [] →
      (runMain env now).outcome =
        .wrote (generate_feed buildEpisode (collectedOf env now))) := by
  unfold errOf at h
  constructor
  · intro hc
    unfold collectedOf at hc
    unfold runMain
    simp only [h, hc, List.isEmpty_nil, if_true]
  · intro hc
    unfold collectedOf at hc
    unfold runMain
    simp only [h]
    rw [if_neg (by simpa [List.isEmpty_iff] using hc)]
    rfl

/-- Claim C7, witness: with every fetch failing the listing is empty, zero
results are collected, and the run ends in the nothing-to-do notice with no
file written. -/
theorem c7_witness :
    errOf envNone now0 = none ∧
    ((collectedOf envNone now0 = [] → (runMain envNone now0).outcome = .nothingToDo) ∧
     (collectedOf envNone now0 ≠ [] →
       (runMain envNone now0).outcome =
         .wrote (generate_feed buildEpisode (collectedOf envNone now0)))) :=
  ⟨by decide, c7_holds envNone now0 (by decide)⟩

/-! ## Claim C8 (corrected) -/

/-- Claim C8, counterexample: the final feed can contain an episode whose
title is the empty string (the page's `h1` is empty, `env8a`) and an
episode whose enclosure URL is the empty string (the audio URL came from a
nested `source` whose `src` attribute is empty, `env8b`); the claim's
non-emptiness of title and audio URL fails. -/
theorem c8_counterexample :
    (feedOf (runMain env8a now0)).map (fun f => f.episodes.map (fun e => e.title)) =
      some [""] ∧
    (feedOf (runMain env8b now0)).map (fun f => f.episodes.map (fun e => e.mediaUrl)) =
      some [""] :=
  ⟨by decide, by decide⟩

/-- Claim C8, amended: every episode of the written feed has a title and an
enclosure URL (both possibly empty strings), and a publication date that is
either the calendar date parsed from the leftmost date-shaped substring of
its own enclosure filename, or the defaulted extraction-time timestamp
when the filename has no such substring. -/
theorem c8_amended_holds (env : String → Option Doc) (now : PyDateTime) (f : FeedFile)
    (h : (runMain env now).outcome = .wrote f) :
    ∀ ep ∈ f.episodes,
      (dateSearch (lastSeg ep.mediaUrl) = none ∧ ep.pubDate = now) ∨
      (∃ m, dateSearch (lastSeg ep.mediaUrl) = some m ∧
        strptimeYMD m = some ep.pubDate) := by
  obtain ⟨herr, hf⟩ := runMain_wrote env now f h
  intro ep hep
  rw [hf] at hep
  have hep' : ep ∈ addEpisodes buildEpisode (collectedOf env now) := hep
  obtain ⟨d, hd, hurl, hdate⟩ := mem_addEpisodes_buildEpisode _ ep hep'
  have hPd : extractDate d.audio_url now = .ok d.date := by
    refine extractLoop_collected_inv env now
      (fun x => extractDate x.audio_url now = .ok x.date)
      (fun u x hg => gmd_date_inv env now u x hg)
      ((scrape_messages env).take 20) ⟨[], [], none⟩ (by simp) d ?_
    exact hd
  rw [hurl, hdate]
  unfold extractDate at hPd
  cases hs : dateSearch (lastSeg d.audio_url) with
  | none =>
    rw [hs] at hPd
    dsimp only at hPd
    left
    refine ⟨rfl, ?_⟩
    injection hPd with h'
    exact h'.symm
  | some m =>
    rw [hs] at hPd
    dsimp only at hPd
    cases hm : strptimeYMD m with
    | none => rw [hm] at hPd; simp at hPd
    | some dd =>
      rw [hm] at hPd
      dsimp only at hPd
      right
      refine ⟨m, rfl, ?_⟩
      rw [hm]
      injection hPd with h'
      rw [h']

/-- Claim C8, witness: the amended theorem applied to the empty-title run,
whose written feed is the one built from `details8a`. -/
theorem c8_amended_witness :
    ((runMain env8a now0).outcome = .wrote (generate_feed buildEpisode [details8a])) ∧
    ∀ ep ∈ (generate_feed buildEpisode [details8a]).episodes,
      (dateSearch (lastSeg ep.mediaUrl) = none ∧ ep.pubDate = now0) ∨
      (∃ m, dateSearch (lastSeg ep.mediaUrl) = some m ∧
        strptimeYMD m = some ep.pubDate) :=
  ⟨by decide,
   c8_amended_holds env8a now0 (generate_feed buildEpisode [details8a]) (by decide)⟩

/-! ## Claim C9 (confirmed) -/

/-- Claim C9: when the marked audio element has no direct `src` attribute
and its chosen nested element lacks the expected URL attribute, the
extractor raises an uncaught key-lookup error instead of returning nothing
— first branch for a nested `source` without `src`, second for a nested
link without `href` when no `source` exists. -/
theorem c9_holds (env : String → Option Doc) (now : PyDateTime) (url : String)
    (doc : Doc) (t : Node)
    (he : env url = some doc) (ht : (docNodes doc).find? isWpAudio = some t)
    (hsrc : nodeAttr t "src" = none) :
    (∀ s, t.findDesc "source" = some s → nodeAttr s "src" = none →
      get_message_details env now url = .error (.keyError "src")) ∧
    (t.findDesc "source" = none → ∀ a, t.findDesc "a" = some a →
      nodeAttr a "href" = none →
      get_message_details env now url = .error (.keyError "href")) := by
  have htr : truthyAttr t "src" = false := by simp [truthyAttr, hsrc]
  constructor
  · intro s hss hsa
    unfold get_message_details
    rw [he]
    dsimp only
    rw [show audioUrlOfDoc doc = .error (.keyError "src") from by
      unfold audioUrlOfDoc
      rw [ht]
      dsimp only
      unfold resolveAudioUrl
      simp only [htr, Bool.false_eq_true, if_false]
      rw [hss]
      dsimp only
      rw [hsa]]
  · intro hsn a haa hah
    unfold get_message_details
    rw [he]
    dsimp only
    rw [show audioUrlOfDoc doc = .error (.keyError "href") from by
      unfold audioUrlOfDoc
      rw [ht]
      dsimp only
      unfold resolveAudioUrl
      simp only [htr, Bool.false_eq_true, if_false]
      rw [hsn]
      dsimp only
      rw [haa]
      dsimp only
      rw [hah]]

/-- Claim C9, witness: the theorem applied to the page at `L1u`, whose
audio element `audioT` has no `src` and whose `source` child `sourceT` has
no attributes at all. -/
theorem c9_witness :
    (env1 L1u = some pageBadSource ∧
     nodeAttr audioT "src" = none ∧ Node.findDesc audioT "source" = some sourceT ∧
     nodeAttr sourceT "src" = none) ∧
    get_message_details env1 now0 L1u = .error (.keyError "src") :=
  ⟨⟨by decide, by decide, by decide, by decide⟩,
   (c9_holds env1 now0 L1u pageBadSource audioT (by decide) (by decide) (by decide)).1
     sourceT (by decide) (by decide)⟩

/-! ## Claim C10 (confirmed) -/

/-- Claim C10: the Feed Builder writes the feed unconditionally after the
episode loop — its result always holds exactly the episodes whose
construction did not raise, and when every single episode construction
raises the written file equals the feed built from no records at all
(zero episodes, same fixed channel metadata). -/
theorem c10_holds (build : MessageDetails → Except String Episode)
    (msgs : List MessageDetails) :
    (generate_feed build msgs).episodes = msgs.filterMap (fun m => (build m).toOption) ∧
    ((∀ m ∈ msgs, ∃ e, build m = .error e) →
      generate_feed build msgs = generate_feed build []) := by
  constructor
  · exact addEpisodes_filterMap build msgs
  · intro hall
    unfold generate_feed
    simp only [FeedFile.mk.injEq, true_and]
    rw [addEpisodes_filterMap]
    simp only [addEpisodes]
    rw [List.filterMap_eq_nil_iff]
    intro m hm
    obtain ⟨e, he⟩ := hall m hm
    simp [he, Except.toOption]

/-- Claim C10, witness: with the always-raising builder on a non-empty
input, the written feed equals the zero-episode feed. -/
theorem c10_witness :
    (∀ m ∈ [sampleDetails], ∃ e, failBuild m = .error e) ∧
    ((generate_feed failBuild [sampleDetails]).episodes =
        [sampleDetails].filterMap (fun m => (failBuild m).toOption) ∧
      ((∀ m ∈ [sampleDetails], ∃ e, failBuild m = .error e) →
        generate_feed failBuild [sampleDetails] = generate_feed failBuild [])) :=
  ⟨fun _ _ => ⟨"boom", rfl⟩, c10_holds failBuild [sampleDetails]⟩
